import Mathlib

/-!
Verification of the RAGify retrieval pipeline
(`web_scraper.py`, `extract_queries.py`, `db_operations.py`, `app.py`).

The Python source is shallowly embedded: strings are `String` (URL
filenames additionally at byte level as `List Nat`, since
`urllib.parse.quote` operates on the UTF-8 bytes of its argument),
fallible externals (HTTP fetches, search backends, the Ollama chat
capability, `json.loads`) are passed in as explicit `Option`-valued
parameters, and the `asyncio` event stream of `fetch_web_pages` is
reified as a list of attempt/sleep events.
-/

namespace RAGify

/-! ### Byte-level model of `urllib.parse.quote(url, safe="")` / `unquote`

`encode_url_to_filename` and `decode_filename_to_url` in
`web_scraper.py` wrap these two library calls.  `quote` works on the
UTF-8 bytes of the string: a byte that is an ASCII letter, digit, or
one of `_ . - ~` is kept literally, every other byte becomes `%XX`
with uppercase hex; `unquote` decodes every `%` followed by two hex
digits (either case) and leaves malformed escapes untouched. -/

/-- Bytes `quote` never escapes: ALPHA / DIGIT / `_` / `.` / `-` / `~`. -/
def isUnreservedByte (b : Nat) : Bool :=
  (48 ≤ b && b ≤ 57) || (65 ≤ b && b ≤ 90) || (97 ≤ b && b ≤ 122) ||
    b == 45 || b == 46 || b == 95 || b == 126

/-- Uppercase hex digit for a nibble, as `quote` emits. -/
def toHexDigit (n : Nat) : Nat :=
  if n < 10 then 48 + n else 55 + n

/-- Value of one hex-digit byte, accepting both cases as `unquote` does. -/
def fromHexDigit (c : Nat) : Option Nat :=
  if 48 ≤ c ∧ c ≤ 57 then some (c - 48)
  else if 65 ≤ c ∧ c ≤ 70 then some (c - 55)
  else if 97 ≤ c ∧ c ≤ 102 then some (c - 87)
  else none

/-- Treatment by `quote` of a single byte under `safe=""`. -/
def encodeByte (b : Nat) : List Nat :=
  if isUnreservedByte b then [b]
  else [37, toHexDigit (b / 16), toHexDigit (b % 16)]

/-- Model of `encode_url_to_filename(url) = urllib.parse.quote(url, safe="")`,
on the UTF-8 bytes of `url`. -/
def encode_url_to_filename : List Nat → List Nat
  | [] => []
  | b :: rest => encodeByte b ++ encode_url_to_filename rest

/-- Model of `decode_filename_to_url(filename) = urllib.parse.unquote(filename)`,
on bytes: every `%` followed by two hex digits is decoded, any other
byte (including a `%` not starting a valid escape) passes through. -/
def decode_filename_to_url : List Nat → List Nat
  | [] => []
  | 37 :: h :: l :: rest2 =>
    match fromHexDigit h, fromHexDigit l with
    | some hv, some lv => (16 * hv + lv) :: decode_filename_to_url rest2
    | _, _ => 37 :: decode_filename_to_url (h :: l :: rest2)
  | c :: rest => c :: decode_filename_to_url rest

/-- UTF-8 encoding of one code point. -/
def utf8Bytes (c : Nat) : List Nat :=
  if c < 128 then [c]
  else if c < 2048 then [192 + c / 64, 128 + c % 64]
  else if c < 65536 then [224 + c / 4096, 128 + (c / 64) % 64, 128 + c % 64]
  else [240 + c / 262144, 128 + (c / 4096) % 64, 128 + (c / 64) % 64, 128 + c % 64]

/-- UTF-8 bytes of a string, as `quote`/`open(filepath)` see them. -/
def strBytes (s : String) : List Nat :=
  (s.data.map (fun ch => utf8Bytes ch.toNat)).flatten

/-- The filename (as a string) `fetch_and_save` derives from a URL. -/
def encodeFilenameStr (url : String) : String :=
  String.mk ((encode_url_to_filename (strBytes url)).map Char.ofNat)

/-- Model of `os.path.join(folder, name)` for the shapes occurring here
(a relative directory joined with a plain file name). -/
def pathJoin (folder name : String) : String :=
  if folder = "" then name
  else if ("/".data.isSuffixOf folder.data) then folder ++ name
  else folder ++ "/" ++ name

/-! ### `get_urls` (`web_scraper.py`)

The two search backends (`DDGS().text` and `googlesearch.search`) are
external collaborators; each is passed in as a function from (query,
result count) to `Option (List (Option String))`: `none` models the
call raising an exception (caught, logged, and turned into `urls = []`),
`some items` models the returned result hrefs, where an individual item
can be `None`/empty (`Option String`).  Both source branches keep only
truthy hrefs while collecting (`if item.get("href")` / `if u:`). -/

/-- Python truthiness of an optional string: `None` and `""` are falsy. -/
def truthy : Option String → Bool
  | none => false
  | some s => s ≠ ""

/-- Check `u.startswith("http://") or u.startswith("https://")`. -/
def isHttpUrl (u : String) : Bool :=
  "http://".data.isPrefixOf u.data || "https://".data.isPrefixOf u.data

/-- Model of `str.lower()` on the ASCII range (provider identifiers are ASCII). -/
def asciiLowerChar (c : Char) : Char :=
  if 65 ≤ c.toNat ∧ c.toNat ≤ 90 then Char.ofNat (c.toNat + 32) else c

/-- Model of `provider.lower()`. -/
def lowerAscii (s : String) : String :=
  String.mk (s.data.map asciiLowerChar)

/-- The `seen`/`clean` filtering loop at the end of `get_urls`: drop
falsy entries, drop non-HTTP(S) entries, drop entries already seen,
keep first occurrences in order. -/
def cleanLoop : List (Option String) → List String → List String
  | [], _ => []
  | u :: rest, seen =>
    match u with
    | none => cleanLoop rest seen
    | some s =>
      if s = "" then cleanLoop rest seen
      else if ¬ isHttpUrl s then cleanLoop rest seen
      else if s ∈ seen then cleanLoop rest seen
      else s :: cleanLoop rest (s :: seen)

/-- The filtering step of `get_urls`, starting from an empty `seen` set. -/
def cleanUrls (urls : List (Option String)) : List String :=
  cleanLoop urls []

/-- Default `provider or "duckduckgo"`: `None` and `""` fall back to the default. -/
def orDefaultProvider : Option String → String
  | none => "duckduckgo"
  | some s => if s = "" then "duckduckgo" else s

/-- Model of `get_urls(query, num_results, provider)`.  `ddg` and `goog` are the
two search backends (see section comment). -/
def get_urls (query : String) (numResults : Nat) (provider : Option String)
    (ddg goog : String → Nat → Option (List (Option String))) : List String :=
  let p := lowerAscii (orDefaultProvider provider)
  let urls : List (Option String) :=
    if p = "duckduckgo" then
      match ddg query numResults with
      | none => []
      | some items => items.filter truthy
    else if p = "google" then
      match goog query numResults with
      | none => []
      | some items => items.filter truthy
    else []
  cleanUrls urls

/-! ### `extract_queries` (`extract_queries.py`)

The Ollama chat capability is external: each of the two `chat(...)`
calls is a parameter of type `Option String` — `none` models the call
raising an exception, `some content` models success with the message
content (possibly empty).  `json.loads` is likewise external; its
outcome on a content string is a parameter classifying the parse
result by the three shapes the code inspects: a JSON object with a
`queries` list (elements already cast by `str(q)`), a bare JSON array
(elements cast by `str(q)`), any other JSON value, or a parse error
(`none`). -/

/-- Shape of a successfully parsed chat content, as far as
`extract_queries` discriminates it. -/
inductive ParsedJson where
  | objQueries (qs : List String)
  | arr (qs : List String)
  | other
deriving DecidableEq

/-- Python whitespace for `str.strip()`. -/
def isPySpace (c : Char) : Bool :=
  c = ' ' || c = '\t' || c = '\n' || c = '\r' ||
    c = Char.ofNat 11 || c = Char.ofNat 12

/-- Model of `line.strip()`. -/
def pyStrip (s : String) : String :=
  String.mk (((s.data.dropWhile isPySpace).reverse.dropWhile isPySpace).reverse)

/-- Model of `content.splitlines()` (on `\n`, `\r\n` and `\r`; no trailing
empty line). -/
def splitLinesAux (cur : List Char) : List Char → List (List Char)
  | [] => if cur.isEmpty then [] else [cur.reverse]
  | '\r' :: '\n' :: rest => cur.reverse :: splitLinesAux [] rest
  | '\n' :: rest => cur.reverse :: splitLinesAux [] rest
  | '\r' :: rest => cur.reverse :: splitLinesAux [] rest
  | c :: rest => splitLinesAux (c :: cur) rest

def splitLines (s : String) : List String :=
  (splitLinesAux [] s.data).map String.mk

/-- The tail of `extract_queries` after a content string was obtained:
`if not content`, then the `json.loads` shape dispatch, then the
non-empty stripped-lines fallback, then `[query]`. -/
def contentToQueries (query content : String)
    (jsonLoads : String → Option ParsedJson) : List String :=
  if content = "" then [query]
  else
    match jsonLoads content with
    | some (ParsedJson.objQueries qs) => qs
    | some (ParsedJson.arr qs) => qs
    | _ =>
      let lines := ((splitLines content).map pyStrip).filter (fun l => l ≠ "")
      if lines.isEmpty then [query] else lines

/-- Model of `extract_queries(query, model)`.  `chatSchema` is the first
`chat(...)` call (with `format=Queries.model_json_schema()`),
`chatPlain` the retry without the schema constraint; `none` means the
call raised. -/
def extract_queries (query : String) (chatSchema chatPlain : Option String)
    (jsonLoads : String → Option ParsedJson) : List String :=
  match chatSchema with
  | some content => contentToQueries query content jsonLoads
  | none =>
    match chatPlain with
    | some content => contentToQueries query content jsonLoads
    | none => [query]

/-- A `json.loads` behaviour needed for the C1 counterexample: the
content `"[]"` parses as the empty JSON array (and nothing else is
claimed about other strings). -/
def emptyArrayLoads : String → Option ParsedJson :=
  fun s => if s = "[]" then some (ParsedJson.arr []) else none

/-! ### `fetch_and_save` / `fetch_web_pages` (`web_scraper.py`)

The HTTP+extraction outcome for a URL is external: a parameter
`outcome : String → Option String` where `some text` models an
error-free response whose body text was extracted, and `none` models
any exception (network, timeout, `raise_for_status`, parsing) — all
caught inside `fetch_and_save`, which then returns `None`.  The
`await asyncio.sleep` pacing calls and the sequential fetch attempts
are reified as an event list. -/

/-- One step of the cooperative schedule: a fetch attempt on a URL, or
a pacing suspension of the given number of seconds. -/
inductive Event where
  | attempt (url : String)
  | sleep (seconds : ℚ)
deriving DecidableEq

/-- The pacing delay chosen from the result of `fetch_and_save`:
2.0 s after `None` (failure), 1.0 s otherwise. -/
def delayAfter (result : Option String) : ℚ :=
  if result.isNone then 2 else 1

/-- Model of `fetch_and_save(session, url, folder)`: on success, write the
extracted text to `os.path.join(folder, encode_url_to_filename(url))`
(overwriting), and return the file path; on any exception return
`None` and leave the file store unchanged.  The file store is the list
of `(filepath, contents)` writes, most recent first. -/
def fetch_and_save (outcome : String → Option String) (folder url : String)
    (files : List (String × String)) : Option String × List (String × String) :=
  let filepath := pathJoin folder (encodeFilenameStr url)
  match outcome url with
  | some text => (some filepath, (filepath, text) :: files)
  | none => (none, files)

/-- The inner `for url in urls` loop of `fetch_web_pages`: skip
non-HTTP entries, `fetch_and_save` each URL once, sleep 2.0 s after a
failure and 1.0 s after a success. -/
def fetchBatch (outcome : String → Option String) (folder : String) :
    List String → List (String × String) → List Event × List (String × String)
  | [], files => ([], files)
  | url :: rest, files =>
    if isHttpUrl url then
      let fs := fetch_and_save outcome folder url files
      let r := fetchBatch outcome folder rest fs.2
      (Event.attempt url :: Event.sleep (delayAfter fs.1) :: r.1, r.2)
    else fetchBatch outcome folder rest files

/-- The outer `for query in queries` loop: `get_urls` per query,
`continue` (no pacing sleep) when it returns nothing, otherwise the
URL batch followed by the 1.0 s between-query sleep. -/
def fetchQueries (numResults : Nat) (provider : Option String)
    (ddg goog : String → Nat → Option (List (Option String)))
    (outcome : String → Option String) (folder : String) :
    List String → List (String × String) → List Event × List (String × String)
  | [], files => ([], files)
  | q :: qs, files =>
    let urls := get_urls q numResults provider ddg goog
    if urls.isEmpty then
      fetchQueries numResults provider ddg goog outcome folder qs files
    else
      let r := fetchBatch outcome folder urls files
      let r2 := fetchQueries numResults provider ddg goog outcome folder qs r.2
      (r.1 ++ Event.sleep 1 :: r2.1, r2.2)

/-- What one call of `fetch_web_pages` leaves behind: the event trace,
the files written under `download_dir`, and the Python return value. -/
structure RunResult where
  events : List Event
  files : List (String × String)
  retval : Bool
deriving DecidableEq

/-- Model of `fetch_web_pages(queries, num_results, provider, download_dir)`.
The function body ends in `return True`. -/
def fetch_web_pages (queries : List String) (numResults : Nat)
    (provider : Option String)
    (ddg goog : String → Nat → Option (List (Option String)))
    (outcome : String → Option String) (folder : String) : RunResult :=
  let r := fetchQueries numResults provider ddg goog outcome folder queries []
  ⟨r.1, r.2, true⟩

/-- The URLs attempted, in order, read off the event trace. -/
def attemptsOf (events : List Event) : List String :=
  events.filterMap fun e =>
    match e with
    | Event.attempt u => some u
    | Event.sleep _ => none

/-- The pre-fetch candidate list of a run: per query the `get_urls`
output, concatenated in query order. -/
def fetchSchedule (queries : List String) (numResults : Nat)
    (provider : Option String)
    (ddg goog : String → Nat → Option (List (Option String))) : List String :=
  (queries.map (fun q => get_urls q numResults provider ddg goog)).flatten

/-! ### Indexing (`db_operations.py`) and prompt assembly -/

/-- Model of `add_to_db(chunks, embedding_function)`: builds an
`InMemoryVectorStore` over the given embedding function and adds every
chunk; the store then holds exactly the given documents, each paired
with its embedding vector. -/
def add_to_db (chunks : List (String × String)) (embedding : String → List ℚ) :
    List ((String × String) × List ℚ) :=
  chunks.map (fun c => (c, embedding c.2))

/-- Modelled from the spec: the document-loading step of
`prompt_generator.py` is not under src/ (only its caller in `app.py`
is).  Per spec §4.4, the index is built from the fetched documents
persisted by the current run — exactly the files `fetch_and_save`
wrote into the download directory. -/
def loadFetchedDocuments (files : List (String × String)) :
    List (String × String) :=
  files

/-- Modelled from the spec: `generate_prompt` lives in
`prompt_generator.py`, which is not under src/ (only its caller in
`app.py` is).  Spec §4.5: the assembler builds a single prompt
embedding the question and the retrieved excerpts, each tagged with its
originating URL; `sources` is the ordered list of those URLs; if
retrieval yields zero documents it returns a prompt consisting of the
bare question and an empty source list. -/
def generate_prompt (question : String) (topDocs : List (String × String)) :
    String × List String :=
  if topDocs.isEmpty then (question, [])
  else
    (question ++ String.join (topDocs.map (fun d => "\n[" ++ d.1 ++ "]\n" ++ d.2)),
      topDocs.map Prod.fst)

/-! ### Concrete fixtures for counterexamples and witnesses -/

/-- A DuckDuckGo backend giving three URLs per query, with
`https://c` common to both queries. -/
def ddgTwoQueries : String → Nat → Option (List (Option String)) := fun q _ =>
  if q = "q1" then some [some "https://a", some "https://b", some "https://c"]
  else some [some "https://c", some "https://d", some "https://e"]

/-- A Google backend that always raises. -/
def googNone : String → Nat → Option (List (Option String)) := fun _ _ => none

/-- A fetch behaviour where only `https://a` succeeds. -/
def outcomeOnlyA : String → Option String := fun u =>
  if u = "https://a" then some "TEXT" else none

/-! ### Helper lemmas -/

lemma fromHexDigit_toHexDigit (n : Nat) (hn : n < 16) :
    fromHexDigit (toHexDigit n) = some n := by
  interval_cases n <;> rfl

lemma isUnreservedByte_ne_37 {b : Nat} (h : isUnreservedByte b = true) :
    b ≠ 37 := by
  simp only [isUnreservedByte, Bool.or_eq_true, Bool.and_eq_true,
    decide_eq_true_eq, beq_iff_eq] at h
  omega

lemma decode_cons_ne37 (c : Nat) (rest : List Nat) (hc : c ≠ 37) :
    decode_filename_to_url (c :: rest) = c :: decode_filename_to_url rest := by
  rw [decode_filename_to_url.eq_def]
  split
  · simp_all
  · rename_i heq
    injection heq with h1 h2
    exact absurd h1 hc
  · rename_i heq
    injection heq with h1 h2
    rw [h1, h2]

lemma decode_escape (h l : Nat) (rest : List Nat) (hv lv : Nat)
    (hh : fromHexDigit h = some hv) (hl : fromHexDigit l = some lv) :
    decode_filename_to_url (37 :: h :: l :: rest) =
      (16 * hv + lv) :: decode_filename_to_url rest := by
  rw [decode_filename_to_url]
  simp [hh, hl]

lemma decode_encode (bs : List Nat) (h : ∀ b ∈ bs, b < 256) :
    decode_filename_to_url (encode_url_to_filename bs) = bs := by
  induction bs with
  | nil => rfl
  | cons b rest ih =>
    have hb : b < 256 := h b (List.mem_cons_self _ _)
    have hrest : ∀ x ∈ rest, x < 256 := fun x hx => h x (List.mem_cons_of_mem _ hx)
    show decode_filename_to_url (encodeByte b ++ encode_url_to_filename rest) = b :: rest
    unfold encodeByte
    split_ifs with hu
    · have hb37 : b ≠ 37 := isUnreservedByte_ne_37 hu
      simp only [List.cons_append, List.nil_append]
      rw [decode_cons_ne37 _ _ hb37, ih hrest]
    · have hdiv : b / 16 < 16 := by omega
      have hmod : b % 16 < 16 := by omega
      simp only [List.cons_append, List.nil_append]
      rw [decode_escape _ _ _ _ _ (fromHexDigit_toHexDigit _ hdiv)
        (fromHexDigit_toHexDigit _ hmod), ih hrest, Nat.div_add_mod]

lemma toHexDigit_ge_48 (n : Nat) : 48 ≤ toHexDigit n := by
  unfold toHexDigit; split_ifs <;> omega

lemma slash_not_mem_encodeByte (b : Nat) : 47 ∉ encodeByte b := by
  unfold encodeByte
  split_ifs with hu
  · have : b ≠ 47 := by
      simp only [isUnreservedByte, Bool.or_eq_true, Bool.and_eq_true,
        decide_eq_true_eq, beq_iff_eq] at hu
      omega
    simp [this.symm]
  · have h1 := toHexDigit_ge_48 (b / 16)
    have h2 := toHexDigit_ge_48 (b % 16)
    intro hmem
    simp only [List.mem_cons, List.not_mem_nil, or_false] at hmem
    omega

lemma cleanLoop_mem {l : List (Option String)} {seen : List String} {u : String}
    (hu : u ∈ cleanLoop l seen) : isHttpUrl u = true ∧ u ∉ seen := by
  induction l generalizing seen with
  | nil => simp [cleanLoop] at hu
  | cons a rest ih =>
    match a with
    | none => exact ih (by simpa [cleanLoop] using hu)
    | some s =>
      by_cases hs : s = ""
      · exact ih (by simpa [cleanLoop, hs] using hu)
      · by_cases hh : isHttpUrl s
        · by_cases hseen : s ∈ seen
          · exact ih (by simpa [cleanLoop, hs, hh, hseen] using hu)
          · rw [show cleanLoop (some s :: rest) seen
                = s :: cleanLoop rest (s :: seen) by simp [cleanLoop, hs, hh, hseen]] at hu
            rcases List.mem_cons.mp hu with h | h
            · exact h ▸ ⟨hh, hseen⟩
            · have := ih h
              exact ⟨this.1, fun hmem => this.2 (List.mem_cons_of_mem _ hmem)⟩
        · exact ih (by simpa [cleanLoop, hs, hh] using hu)

lemma cleanLoop_nodup (l : List (Option String)) (seen : List String) :
    (cleanLoop l seen).Nodup := by
  induction l generalizing seen with
  | nil => simp [cleanLoop]
  | cons a rest ih =>
    match a with
    | none => simpa [cleanLoop] using ih seen
    | some s =>
      by_cases hs : s = ""
      · simpa [cleanLoop, hs] using ih seen
      · by_cases hh : isHttpUrl s
        · by_cases hseen : s ∈ seen
          · simpa [cleanLoop, hs, hh, hseen] using ih seen
          · rw [show cleanLoop (some s :: rest) seen
                = s :: cleanLoop rest (s :: seen) by simp [cleanLoop, hs, hh, hseen]]
            refine List.nodup_cons.mpr ⟨fun hmem => ?_, ih (s :: seen)⟩
            exact (cleanLoop_mem hmem).2 (List.mem_cons_self _ _)
        · simpa [cleanLoop, hs, hh] using ih seen

lemma cleanLoop_sublist (l : List (Option String)) (seen : List String) :
    (cleanLoop l seen).Sublist (l.filterMap id) := by
  induction l generalizing seen with
  | nil => simp [cleanLoop]
  | cons a rest ih =>
    match a with
    | none => simpa [cleanLoop] using ih seen
    | some s =>
      have step : (cleanLoop rest seen).Sublist (s :: rest.filterMap id) :=
        (ih seen).trans (List.sublist_cons_self _ _)
      by_cases hs : s = ""
      · simpa [cleanLoop, hs] using step
      · by_cases hh : isHttpUrl s
        · by_cases hseen : s ∈ seen
          · simpa [cleanLoop, hs, hh, hseen] using step
          · rw [show cleanLoop (some s :: rest) seen
                = s :: cleanLoop rest (s :: seen) by simp [cleanLoop, hs, hh, hseen]]
            simpa using List.Sublist.cons₂ s (ih (s :: seen))
        · simpa [cleanLoop, hs, hh] using step

lemma cleanLoop_complete {l : List (Option String)} {u : String}
    (hmem : some u ∈ l) (hne : u ≠ "") (hh : isHttpUrl u = true) :
    ∀ seen : List String, u ∉ seen → u ∈ cleanLoop l seen := by
  induction l with
  | nil => simp at hmem
  | cons a rest ih =>
    intro seen hseenu
    match a with
    | none =>
      rw [show cleanLoop (none :: rest) seen = cleanLoop rest seen by simp [cleanLoop]]
      exact ih (by simpa using hmem) seen hseenu
    | some s =>
      by_cases hs : s = ""
      · rw [show cleanLoop (some s :: rest) seen = cleanLoop rest seen by
          simp [cleanLoop, hs]]
        have : some u ∈ rest := by
          rcases List.mem_cons.mp hmem with h | h
          · exact absurd ((Option.some.inj h).trans hs) hne
          · exact h
        exact ih this seen hseenu
      · by_cases hhs : isHttpUrl s
        · by_cases hseen : s ∈ seen
          · rw [show cleanLoop (some s :: rest) seen = cleanLoop rest seen by
              simp [cleanLoop, hs, hhs, hseen]]
            have : some u ∈ rest := by
              rcases List.mem_cons.mp hmem with h | h
              · exact absurd ((Option.some.inj h) ▸ hseen) hseenu
              · exact h
            exact ih this seen hseenu
          · rw [show cleanLoop (some s :: rest) seen
                = s :: cleanLoop rest (s :: seen) by simp [cleanLoop, hs, hhs, hseen]]
            by_cases hus : u = s
            · exact hus ▸ List.mem_cons_self _ _
            · have : some u ∈ rest := by
                rcases List.mem_cons.mp hmem with h | h
                · exact absurd (Option.some.inj h) hus
                · exact h
              exact List.mem_cons_of_mem _
                (ih this (s :: seen) (by simp [hus, hseenu]))
        · rw [show cleanLoop (some s :: rest) seen = cleanLoop rest seen by
            simp [cleanLoop, hs, hhs]]
          have : some u ∈ rest := by
            rcases List.mem_cons.mp hmem with h | h
            · exact absurd (Option.some.inj h ▸ hh) hhs
            · exact h
          exact ih this seen hseenu

lemma get_urls_isHttp {query : String} {numResults : Nat}
    {provider : Option String} {ddg goog} {u : String}
    (hu : u ∈ get_urls query numResults provider ddg goog) :
    isHttpUrl u = true :=
  (cleanLoop_mem hu).1

lemma get_urls_nodup (query : String) (numResults : Nat)
    (provider : Option String) (ddg goog) :
    (get_urls query numResults provider ddg goog).Nodup :=
  cleanLoop_nodup _ []

lemma attemptsOf_fetchBatch (outcome : String → Option String) (folder : String)
    (urls : List String) (files : List (String × String))
    (h : ∀ u ∈ urls, isHttpUrl u = true) :
    attemptsOf (fetchBatch outcome folder urls files).1 = urls := by
  induction urls generalizing files with
  | nil => rfl
  | cons url rest ih =>
    have hurl : isHttpUrl url = true := h url (List.mem_cons_self _ _)
    have hrest : ∀ u ∈ rest, isHttpUrl u = true :=
      fun u hu => h u (List.mem_cons_of_mem _ hu)
    show attemptsOf (fetchBatch outcome folder (url :: rest) files).1 = url :: rest
    rw [fetchBatch]
    simp only [if_pos hurl]
    have := ih (fetch_and_save outcome folder url files).2 hrest
    simpa [attemptsOf] using this

lemma attemptsOf_fetchQueries (numResults : Nat) (provider : Option String)
    (ddg goog : String → Nat → Option (List (Option String)))
    (outcome : String → Option String) (folder : String)
    (queries : List String) (files : List (String × String)) :
    attemptsOf (fetchQueries numResults provider ddg goog outcome folder queries files).1
      = fetchSchedule queries numResults provider ddg goog := by
  induction queries generalizing files with
  | nil => rfl
  | cons q qs ih =>
    rw [fetchQueries]
    by_cases hurls : (get_urls q numResults provider ddg goog).isEmpty
    · simp only [if_pos hurls, ih]
      show _ = fetchSchedule (q :: qs) numResults provider ddg goog
      unfold fetchSchedule
      simp [List.isEmpty_iff.mp hurls]
    · simp only [if_neg hurls]
      show attemptsOf (_ ++ Event.sleep 1 :: _) = _
      unfold attemptsOf
      rw [List.filterMap_append]
      show (attemptsOf _) ++ attemptsOf (Event.sleep 1 :: _) = _
      rw [attemptsOf_fetchBatch _ _ _ _ (fun u hu => get_urls_isHttp hu)]
      unfold fetchSchedule
      simp only [List.map_cons, List.flatten_cons]
      congr 1
      show attemptsOf (Event.sleep 1 :: _) = _
      unfold attemptsOf
      simp only [List.filterMap_cons]
      exact ih _

lemma fetchBatch_files_origin (outcome : String → Option String) (folder : String)
    (urls : List String) (files : List (String × String))
    (entry : String × String)
    (hmem : entry ∈ (fetchBatch outcome folder urls files).2) :
    entry ∈ files ∨ ∃ url text, outcome url = some text ∧
      entry = (pathJoin folder (encodeFilenameStr url), text) := by
  induction urls generalizing files with
  | nil => exact Or.inl hmem
  | cons url rest ih =>
    rw [fetchBatch] at hmem
    by_cases hurl : isHttpUrl url
    · simp only [if_pos hurl] at hmem
      match hout : outcome url with
      | some text =>
        have : (fetch_and_save outcome folder url files).2
            = (pathJoin folder (encodeFilenameStr url), text) :: files := by
          unfold fetch_and_save
          rw [hout]
        rcases ih ((pathJoin folder (encodeFilenameStr url), text) :: files)
            (by rw [this] at hmem; exact hmem) with h | h
        · rcases List.mem_cons.mp h with h2 | h2
          · exact Or.inr ⟨url, text, hout, h2⟩
          · exact Or.inl h2
        · exact Or.inr h
      | none =>
        have : (fetch_and_save outcome folder url files).2 = files := by
          unfold fetch_and_save
          rw [hout]
        rw [this] at hmem
        exact ih _ hmem
    · simp only [if_neg hurl] at hmem
      exact ih _ hmem

lemma fetchQueries_files_origin (numResults : Nat) (provider : Option String)
    (ddg goog : String → Nat → Option (List (Option String)))
    (outcome : String → Option String) (folder : String)
    (queries : List String) (files : List (String × String))
    (entry : String × String)
    (hmem : entry ∈ (fetchQueries numResults provider ddg goog outcome folder queries files).2) :
    entry ∈ files ∨ ∃ url text, outcome url = some text ∧
      entry = (pathJoin folder (encodeFilenameStr url), text) := by
  induction queries generalizing files with
  | nil => exact Or.inl hmem
  | cons q qs ih =>
    rw [fetchQueries] at hmem
    by_cases hurls : (get_urls q numResults provider ddg goog).isEmpty
    · simp only [if_pos hurls] at hmem
      exact ih _ hmem
    · simp only [if_neg hurls] at hmem
      rcases ih _ hmem with h | h
      · exact fetchBatch_files_origin _ _ _ _ _ h
      · exact Or.inr h

/-! ### Claim theorems -/

/-- C2: percent-encoding then percent-decoding is the identity on every
byte string, hence on every URL composed of printable characters:
`decode_filename_to_url (encode_url_to_filename url) = url`. -/
theorem C2_encode_decode_roundtrip (url : List Nat) (h : ∀ b ∈ url, b < 256) :
    decode_filename_to_url (encode_url_to_filename url) = url :=
  decode_encode url h

/-- C2 witness: the roundtrip at the concrete URL bytes of
"http://a b%c?d=1" (space, percent, question mark and equals all get
escaped and recovered). -/
theorem C2_encode_decode_roundtrip_witness :
    (∀ b ∈ [104, 116, 116, 112, 58, 47, 47, 97, 32, 98, 37, 99, 63, 100, 61, 49], b < 256) ∧
      decode_filename_to_url (encode_url_to_filename
        [104, 116, 116, 112, 58, 47, 47, 97, 32, 98, 37, 99, 63, 100, 61, 49]) =
        [104, 116, 116, 112, 58, 47, 47, 97, 32, 98, 37, 99, 63, 100, 61, 49] :=
  ⟨by decide, C2_encode_decode_roundtrip _ (by decide)⟩

/-- C3: the filtering step of `get_urls` — for every input list
(possibly holding `None`/empty/non-HTTP/repeated entries) the output
has no duplicates, holds only `http://`/`https://` entries, is a
sublist of the string entries of the input (so first-seen order is
preserved), and keeps every valid entry of the input. -/
theorem C3_cleanUrls_filtering (l : List (Option String)) :
    (cleanUrls l).Nodup ∧
      (∀ u ∈ cleanUrls l, isHttpUrl u = true) ∧
      (cleanUrls l).Sublist (l.filterMap id) ∧
      (∀ u : String, some u ∈ l → u ≠ "" → isHttpUrl u = true → u ∈ cleanUrls l) := by
  refine ⟨cleanLoop_nodup l [], ?_, cleanLoop_sublist l [], ?_⟩
  · exact fun u hu => (cleanLoop_mem hu).1
  · exact fun u hmem hne hh => cleanLoop_complete hmem hne hh [] (by simp)

/-- C3 witness: a concrete list with a `None`, an empty string, an FTP
URL and a repeat; the output is deduplicated, ordered, HTTP-only, and
contains the valid entries. -/
theorem C3_cleanUrls_filtering_witness :
    (cleanUrls [some "https://a", none, some "", some "ftp://x",
        some "https://a", some "http://b"]).Nodup ∧
      "http://b" ∈ cleanUrls [some "https://a", none, some "", some "ftp://x",
        some "https://a", some "http://b"] :=
  ⟨(C3_cleanUrls_filtering _).1,
    (C3_cleanUrls_filtering _).2.2.2 "http://b" (by decide) (by decide) (by decide)⟩

/-- C6 fails as stated: a provider string that is neither exactly
`"duckduckgo"` nor exactly `"google"` can still reach a search backend,
because `get_urls` lowercases the identifier first — `"GOOGLE"` routes
to the Google branch and returns its URLs. -/
theorem C6_counterexample :
    ("GOOGLE" ≠ "duckduckgo" ∧ "GOOGLE" ≠ "google") ∧
      get_urls "q" 3 (some "GOOGLE") (fun _ _ => none)
        (fun _ _ => some [some "https://example.com"]) = ["https://example.com"] := by
  constructor
  · exact ⟨by decide, by decide⟩
  · rfl

/-- C6 (amended): for every query and result count, a provider
identifier that is non-empty and whose lowercase form is neither
`"duckduckgo"` nor `"google"` makes `get_urls` return the empty list
(and no error is raised — the unknown-provider branch only logs);
empty/`None` providers default to DuckDuckGo and matching is
case-insensitive. -/
theorem C6_unknown_provider_empty (query : String) (numResults : Nat)
    (p : String) (ddg goog : String → Nat → Option (List (Option String)))
    (hne : p ≠ "") (hd : lowerAscii p ≠ "duckduckgo") (hg : lowerAscii p ≠ "google") :
    get_urls query numResults (some p) ddg goog = [] := by
  unfold get_urls orDefaultProvider
  simp only [if_neg hne, if_neg hd, if_neg hg]
  rfl

/-- C6 witness: the unknown provider `"bing"` yields `[]` even when
both search backends would return URLs. -/
theorem C6_unknown_provider_empty_witness :
    get_urls "q" 3 (some "bing") (fun _ _ => some [some "https://d"])
      (fun _ _ => some [some "https://g"]) = [] :=
  C6_unknown_provider_empty "q" 3 "bing" _ _ (by decide) (by decide) (by decide)

/-- C1 fails as stated: when the chat call succeeds with content
`"[]"` — a bare empty JSON array, which `json.loads` parses and the
`isinstance(parsed, list)` branch returns directly — `extract_queries`
returns the empty list. -/
theorem C1_counterexample :
    extract_queries "capital of France" (some "[]") none emptyArrayLoads = [] := by
  rfl

/-- C1 (amended): for every question and every behaviour of the chat
capability, `extract_queries` returns a non-empty list *provided* the
content does not parse as a JSON object whose `queries` field is the
empty list, nor as an empty JSON array; in those two cases (and only
those) the empty parsed list is passed straight through. -/
theorem C1_extract_queries_nonempty (query : String)
    (chatSchema chatPlain : Option String)
    (jsonLoads : String → Option ParsedJson)
    (hobj : ∀ s, jsonLoads s ≠ some (ParsedJson.objQueries []))
    (harr : ∀ s, jsonLoads s ≠ some (ParsedJson.arr [])) :
    extract_queries query chatSchema chatPlain jsonLoads ≠ [] := by
  have key : ∀ content, contentToQueries query content jsonLoads ≠ [] := by
    intro content
    unfold contentToQueries
    split_ifs with hc
    · simp
    · match hj : jsonLoads content with
      | some (ParsedJson.objQueries qs) =>
        simp only [hj]
        intro hqs
        exact hobj content (hqs ▸ hj)
      | some (ParsedJson.arr qs) =>
        simp only [hj]
        intro hqs
        exact harr content (hqs ▸ hj)
      | some ParsedJson.other =>
        simp only [hj]
        split_ifs with hl
        · simp
        · simpa [List.isEmpty_iff] using hl
      | none =>
        simp only [hj]
        split_ifs with hl
        · simp
        · simpa [List.isEmpty_iff] using hl
  unfold extract_queries
  match chatSchema with
  | some content => exact key content
  | none =>
    match chatPlain with
    | some content => exact key content
    | none => simp

/-- C1 witness: with both chat calls failing, the original question
comes back and the result is non-empty. -/
theorem C1_extract_queries_nonempty_witness :
    extract_queries "capital of France" none none (fun _ => none) ≠ [] :=
  C1_extract_queries_nonempty "capital of France" none none (fun _ => none)
    (fun _ => by simp) (fun _ => by simp)

/-- C10: the filename produced by `encode_url_to_filename` contains no
path-separator byte `/` (47): `quote` is called with `safe=""`, so `/`
is always escaped to `%2F`, and the hex digits and `%` introduced by
escaping are themselves never `/`.  Hence the file written by
`fetch_and_save` stays directly inside the destination directory. -/
theorem C10_filename_has_no_slash (url : List Nat) :
    47 ∉ encode_url_to_filename url := by
  induction url with
  | nil => simp [encode_url_to_filename]
  | cons b rest ih =>
    show 47 ∉ encodeByte b ++ encode_url_to_filename rest
    intro hmem
    rcases List.mem_append.mp hmem with h | h
    · exact slash_not_mem_encodeByte b h
    · exact ih h

/-- C4 fails as stated: deduplication happens only inside `get_urls`,
once per query — `fetch_web_pages` keeps no cross-query `seen` set.
With two queries of 3 URLs sharing one URL, the pre-fetch candidate
list has 6 entries (the shared URL twice), not a deduplicated 5. -/
theorem C4_counterexample :
    fetchSchedule ["q1", "q2"] 3 (some "duckduckgo") ddgTwoQueries googNone
        = ["https://a", "https://b", "https://c",
           "https://c", "https://d", "https://e"] ∧
      ¬ (fetchSchedule ["q1", "q2"] 3 (some "duckduckgo")
          ddgTwoQueries googNone).Nodup := by
  exact ⟨rfl, by decide⟩

/-- C4 (amended): the candidate list before fetching is the plain
concatenation of the individually deduplicated URL lists of both queries:
6 entries of which 5 are distinct, the cross-query duplicate
`https://c` being attempted twice. -/
theorem C4_schedule_concat_within_query_dedup :
    fetchSchedule ["q1", "q2"] 3 (some "duckduckgo") ddgTwoQueries googNone
        = get_urls "q1" 3 (some "duckduckgo") ddgTwoQueries googNone
          ++ get_urls "q2" 3 (some "duckduckgo") ddgTwoQueries googNone ∧
      (fetchSchedule ["q1", "q2"] 3 (some "duckduckgo")
        ddgTwoQueries googNone).length = 6 ∧
      (fetchSchedule ["q1", "q2"] 3 (some "duckduckgo")
        ddgTwoQueries googNone).dedup.length = 5 ∧
      (fetchSchedule ["q1", "q2"] 3 (some "duckduckgo")
        ddgTwoQueries googNone).count "https://c" = 2 := by
  refine ⟨?_, rfl, by decide, by decide⟩
  show (List.map _ ["q1", "q2"]).flatten = _
  simp

/-- C5 fails as stated: the return value of `fetch_web_pages` is the
bare constant `True` — identical for a run where every fetch fails and
a run where every fetch succeeds — so it is not a sequence of
`FetchedDocument` records recording the mixed outcomes of the batch. -/
theorem C5_counterexample :
    (fetch_web_pages ["q1"] 3 (some "duckduckgo") ddgTwoQueries googNone
        (fun _ => none) "./downloaded").retval
      = (fetch_web_pages ["q1"] 3 (some "duckduckgo") ddgTwoQueries googNone
        (fun _ => some "TEXT") "./downloaded").retval ∧
      (fetch_web_pages ["q1"] 3 (some "duckduckgo") ddgTwoQueries googNone
        (fun _ => none) "./downloaded").retval = true :=
  ⟨rfl, rfl⟩

/-- C5 (amended): for every input and every per-URL fetch behaviour,
`fetch_web_pages` completes and returns `True`; per-URL errors are
absorbed inside `fetch_and_save`, which returns `None` and writes
nothing on failure, so no per-URL error propagates to the batch. -/
theorem C5_fetch_web_pages_total (queries : List String) (numResults : Nat)
    (provider : Option String)
    (ddg goog : String → Nat → Option (List (Option String)))
    (outcome : String → Option String) (folder : String) :
    (fetch_web_pages queries numResults provider ddg goog outcome folder).retval
        = true ∧
      ∀ url files, outcome url = none →
        fetch_and_save outcome folder url files = (none, files) := by
  refine ⟨rfl, fun url files h => ?_⟩
  unfold fetch_and_save
  rw [h]

/-- C5 witness: a concrete run returns `True`, and a failing URL leaves
the file store untouched while yielding `None`. -/
theorem C5_fetch_web_pages_total_witness :
    (fetch_web_pages ["q1"] 3 (some "duckduckgo") ddgTwoQueries googNone
        (fun _ => none) "./downloaded").retval = true ∧
      fetch_and_save (fun _ => none) "./downloaded" "https://a" [] = (none, []) :=
  ⟨(C5_fetch_web_pages_total ["q1"] 3 (some "duckduckgo") ddgTwoQueries googNone
      (fun _ => none) "./downloaded").1,
    (C5_fetch_web_pages_total ["q1"] 3 (some "duckduckgo") ddgTwoQueries googNone
      (fun _ => none) "./downloaded").2 "https://a" [] rfl⟩

/-- C7: every record in the embedding index — built over the documents
persisted by the run — originated from a fetch whose outcome was
Success: its document is the persisted file and
extracted text.  A URL whose fetch failed contributes neither a file
nor a vector. -/
theorem C7_index_only_success (queries : List String) (numResults : Nat)
    (provider : Option String)
    (ddg goog : String → Nat → Option (List (Option String)))
    (outcome : String → Option String) (folder : String)
    (embedding : String → List ℚ) :
    ∀ rec ∈ add_to_db (loadFetchedDocuments
        (fetch_web_pages queries numResults provider ddg goog outcome folder).files)
        embedding,
      ∃ url text, outcome url = some text ∧
        rec.1 = (pathJoin folder (encodeFilenameStr url), text) := by
  intro rec hrec
  unfold add_to_db loadFetchedDocuments at hrec
  rcases List.mem_map.mp hrec with ⟨entry, hentry, hrec2⟩
  have horigin := fetchQueries_files_origin numResults provider ddg goog outcome
    folder queries [] entry hentry
  rcases horigin with h | ⟨url, text, hout, he⟩
  · simp at h
  · exact ⟨url, text, hout, by rw [← hrec2, he]⟩

/-- C7 witness: in a run where only `https://a` succeeds, the file
written for it appears in the index and the theorem traces it back to
that Success fetch. -/
theorem C7_index_only_success_witness :
    ((pathJoin "./downloaded" (encodeFilenameStr "https://a"), "TEXT"),
        ([] : List ℚ)) ∈ add_to_db (loadFetchedDocuments
        (fetch_web_pages ["q1"] 3 (some "duckduckgo") ddgTwoQueries googNone
          outcomeOnlyA "./downloaded").files) (fun _ => []) ∧
      ∃ url text, outcomeOnlyA url = some text ∧
        ((pathJoin "./downloaded" (encodeFilenameStr "https://a"), "TEXT"),
          ([] : List ℚ)).1 = (pathJoin "./downloaded" (encodeFilenameStr url), text) :=
  ⟨by decide, C7_index_only_success ["q1"] 3 (some "duckduckgo") ddgTwoQueries
      googNone outcomeOnlyA "./downloaded" (fun _ => []) _ (by decide)⟩

/-- C8: the pacing delay after a Failed fetch (2.0 s) strictly exceeds
the delay after a Success (1.0 s), and the attempt trace of the run equals
the schedule — each scheduled URL is attempted exactly once, in order,
with no retries (each per-query URL list itself being duplicate-free). -/
theorem C8_pacing_and_single_attempt (queries : List String) (numResults : Nat)
    (provider : Option String)
    (ddg goog : String → Nat → Option (List (Option String)))
    (outcome : String → Option String) (folder filepath : String) :
    delayAfter none = 2 ∧ delayAfter (some filepath) = 1 ∧
      delayAfter (some filepath) < delayAfter none ∧
      attemptsOf (fetch_web_pages queries numResults provider ddg goog outcome
          folder).events
        = fetchSchedule queries numResults provider ddg goog ∧
      ∀ q, (get_urls q numResults provider ddg goog).Nodup := by
  refine ⟨rfl, rfl, by norm_num [delayAfter], ?_,
    fun q => get_urls_nodup q numResults provider ddg goog⟩
  exact attemptsOf_fetchQueries numResults provider ddg goog outcome folder queries []

/-- C9 fails as stated only for the empty question: with zero retrieved
documents the assembler returns the bare question, which for the empty
question is the empty prompt, not a non-empty one. -/
theorem C9_counterexample : generate_prompt "" [] = ("", []) := rfl

/-- C9 (amended): for every question, if retrieval yields zero
documents, `generate_prompt` returns exactly the bare question as the
prompt together with an empty source list; the prompt is non-empty
whenever the question is. -/
theorem C9_empty_retrieval_fallback (question : String)
    (topDocs : List (String × String)) (h : topDocs = []) :
    generate_prompt question topDocs = (question, []) ∧
      (question ≠ "" → (generate_prompt question topDocs).1 ≠ "") := by
  subst h
  exact ⟨rfl, fun hq => hq⟩

/-- C9 witness: the fallback at the concrete question
"capital of France". -/
theorem C9_empty_retrieval_fallback_witness :
    generate_prompt "capital of France" [] = ("capital of France", []) ∧
      ("capital of France" ≠ "" →
        (generate_prompt "capital of France" []).1 ≠ "") :=
  C9_empty_retrieval_fallback "capital of France" [] rfl

end RAGify
